import Mathlib

/-!
Shallow embedding of the bplus-tui core: the action reducer (src/app.rs),
the SSE stream consumer loop (src/api.rs), the key-dispatch layer
(src/main.rs) and the render-time scroll clamp (src/ui.rs), together with
theorems settling the frozen claims about them.
-/

namespace Bplus

/-! ## String helpers modelling Rust std behavior used by the source -/

/-- Model of the Unicode White_Space set used by Rust char::is_whitespace
(relevant to str::trim in the SubmitSearch guard). -/
def isRustWhitespace (c : Char) : Bool :=
  let n := c.toNat
  (9 ≤ n && n ≤ 13) || n = 32 || n = 133 || n = 160 || n = 5760 ||
  (8192 ≤ n && n ≤ 8202) || n = 8232 || n = 8233 || n = 8239 || n = 8287 || n = 12288

/-- Model of Rust str::trim: strip leading and trailing whitespace. -/
def rustTrim (s : String) : String :=
  ⟨((s.data.dropWhile isRustWhitespace).reverse.dropWhile isRustWhitespace).reverse⟩

/-- ASCII model of Rust String::to_lowercase as used by the launcher filter
(full Unicode case mapping lies outside the embedding; both the filter input
and the app fields are lowered through this same map, as in the source). -/
def lowerChar (c : Char) : Char :=
  if 65 ≤ c.toNat && c.toNat ≤ 90 then Char.ofNat (c.toNat + 32) else c

/-- Lowercase an entire string, character by character. -/
def toLowerStr (s : String) : String := ⟨s.data.map lowerChar⟩

/-- Does the list start with the given pattern? -/
def startsWithSeq : List Char → List Char → Bool
  | _, [] => true
  | [], _ :: _ => false
  | a :: as, b :: bs => a == b && startsWithSeq as bs

/-- Model of Rust str::contains with a string pattern: substring occurrence.
On valid UTF-8 the byte-level search of the Rust standard library coincides
with this character-level search. The empty pattern matches everywhere. -/
def containsSeq : List Char → List Char → Bool
  | [], pat => pat.isEmpty
  | a :: as, pat => startsWithSeq (a :: as) pat || containsSeq as pat

/-- Model of Rust str::lines as used by the LaunchResult arm: split at line
feeds, a final line ending being optional, and strip a carriage return left
at the end of a segment by a CRLF ending. -/
def rustLines (s : String) : List String :=
  if s.isEmpty then []
  else
    let segs := s.splitOn "\n"
    let segs := if s.endsWith "\n" then segs.dropLast else segs
    segs.map fun t => if t.endsWith "\r" then t.dropRight 1 else t

/-! ## JSON values and a parser modelling serde_json::from_str

The stream consumer and the conversation loader parse JSON payloads through
serde_json. The value type and the parser below model that library at the
level the source observes it: the numeric value of a number literal is never
read by any decoder in this program, so it is not retained; surrogate-pair
escapes and duplicate-key rejection of serde are not reproduced (no decoder
or claim depends on them). -/

inductive Json where
  | null
  | bool (b : Bool)
  | num
  | str (s : String)
  | arr (elems : List Json)
  | obj (fields : List (String × Json))

/-- JSON insignificant whitespace. -/
def isJsonWs (c : Char) : Bool := c == ' ' || c == '\t' || c == '\n' || c == '\r'

/-- Drop leading JSON whitespace. -/
def skipWs : List Char → List Char
  | [] => []
  | c :: cs => if isJsonWs c then skipWs cs else c :: cs

/-- Value of a hexadecimal digit. -/
def hexVal (c : Char) : Option Nat :=
  if 48 ≤ c.toNat && c.toNat ≤ 57 then some (c.toNat - 48)
  else if 97 ≤ c.toNat && c.toNat ≤ 102 then some (c.toNat - 87)
  else if 65 ≤ c.toNat && c.toNat ≤ 70 then some (c.toNat - 55)
  else none

/-- Parse the body of a JSON string literal (the opening quote already
consumed), returning the decoded text and the remaining input. -/
def pString : Nat → List Char → List Char → Option (String × List Char)
  | 0, _, _ => none
  | _, [], _ => none
  | fuel + 1, c :: rest, acc =>
    if c == '"' then some (⟨acc.reverse⟩, rest)
    else if c == '\\' then
      match rest with
      | [] => none
      | e :: rest2 =>
        if e == '"' then pString fuel rest2 ('"' :: acc)
        else if e == '\\' then pString fuel rest2 ('\\' :: acc)
        else if e == '/' then pString fuel rest2 ('/' :: acc)
        else if e == 'b' then pString fuel rest2 (Char.ofNat 8 :: acc)
        else if e == 'f' then pString fuel rest2 (Char.ofNat 12 :: acc)
        else if e == 'n' then pString fuel rest2 ('\n' :: acc)
        else if e == 'r' then pString fuel rest2 ('\r' :: acc)
        else if e == 't' then pString fuel rest2 ('\t' :: acc)
        else if e == 'u' then
          match rest2 with
          | h1 :: h2 :: h3 :: h4 :: rest3 =>
            match hexVal h1, hexVal h2, hexVal h3, hexVal h4 with
            | some a, some b, some c3, some d =>
              let v := ((a * 16 + b) * 16 + c3) * 16 + d
              if v < 55296 || (57344 ≤ v && v < 1114112) then
                pString fuel rest3 (Char.ofNat v :: acc)
              else none
            | _, _, _, _ => none
          | _ => none
        else none
    else if c.toNat < 32 then none
    else pString fuel rest (c :: acc)

/-- Split off a maximal run of decimal digits. -/
def digitSpan (cs : List Char) : List Char × List Char :=
  (cs.takeWhile (·.isDigit), cs.dropWhile (·.isDigit))

/-- Parse an optional fraction part. -/
def pFrac (cs : List Char) : Option (List Char) :=
  match cs with
  | '.' :: r =>
    let (fr, r2) := digitSpan r
    if fr.isEmpty then none else some r2
  | _ => some cs

/-- Parse an optional exponent part. -/
def pExp (cs : List Char) : Option (List Char) :=
  match cs with
  | c :: r =>
    if c == 'e' || c == 'E' then
      let r2 := match r with
        | sgn :: rr => if sgn == '+' || sgn == '-' then rr else r
        | [] => r
      let (ds, r3) := digitSpan r2
      if ds.isEmpty then none else some r3
    else some cs
  | [] => some []

/-- Parse a JSON number (leading-zero rule of the JSON grammar included). -/
def pNumber (cs : List Char) : Option (Json × List Char) :=
  let cs1 := match cs with
    | '-' :: r => r
    | _ => cs
  match cs1 with
  | [] => none
  | c :: rest =>
    if c == '0' then do
      let r2 ← pFrac rest
      let r3 ← pExp r2
      some (Json.num, r3)
    else if c.isDigit then do
      let (_, r1) := digitSpan cs1
      let r2 ← pFrac r1
      let r3 ← pExp r2
      some (Json.num, r3)
    else none

mutual

/-- Parse one JSON value, fuel-bounded. -/
def pValue : Nat → List Char → Option (Json × List Char)
  | 0, _ => none
  | fuel + 1, cs =>
    match skipWs cs with
    | [] => none
    | c :: rest =>
      if c == 'n' then
        match rest with
        | 'u' :: 'l' :: 'l' :: r => some (Json.null, r)
        | _ => none
      else if c == 't' then
        match rest with
        | 'r' :: 'u' :: 'e' :: r => some (Json.bool true, r)
        | _ => none
      else if c == 'f' then
        match rest with
        | 'a' :: 'l' :: 's' :: 'e' :: r => some (Json.bool false, r)
        | _ => none
      else if c == '"' then
        (pString (rest.length + 1) rest []).map fun p => (Json.str p.1, p.2)
      else if c == '[' then
        match skipWs rest with
        | ']' :: r => some (Json.arr [], r)
        | _ => pElems fuel rest []
      else if c == Char.ofNat 123 then
        match skipWs rest with
        | d :: r => if d == Char.ofNat 125 then some (Json.obj [], r) else pMembers fuel rest []
        | [] => none
      else pNumber (c :: rest)

/-- Parse the elements of a non-empty JSON array. -/
def pElems : Nat → List Char → List Json → Option (Json × List Char)
  | 0, _, _ => none
  | fuel + 1, cs, acc =>
    match pValue fuel cs with
    | none => none
    | some (v, r1) =>
      match skipWs r1 with
      | ',' :: r2 => pElems fuel r2 (v :: acc)
      | ']' :: r2 => some (Json.arr (v :: acc).reverse, r2)
      | _ => none

/-- Parse the members of a non-empty JSON object. -/
def pMembers : Nat → List Char → List (String × Json) → Option (Json × List Char)
  | 0, _, _ => none
  | fuel + 1, cs, acc =>
    match skipWs cs with
    | '"' :: r =>
      match pString (r.length + 1) r [] with
      | none => none
      | some (k, r1) =>
        match skipWs r1 with
        | ':' :: r2 =>
          match pValue fuel r2 with
          | none => none
          | some (v, r3) =>
            match skipWs r3 with
            | ',' :: r4 => pMembers fuel r4 ((k, v) :: acc)
            | d :: r4 =>
              if d == Char.ofNat 125 then some (Json.obj ((k, v) :: acc).reverse, r4) else none
            | [] => none
        | _ => none
    | _ => none

end

/-- Model of serde_json::from_str to a Value: parse one JSON document and
require that nothing but whitespace follows it. -/
def Json.parse (s : String) : Option Json :=
  match pValue (2 * s.length + 8) s.data with
  | some (j, rest) => if (skipWs rest).isEmpty then some j else none
  | none => none

/-- Model of serde_json Value string indexing: field of an object, nothing
otherwise (the Null produced by the library for a miss is observed by the
source only through as_str, which this composition reproduces). -/
def jIndex (j : Json) (k : String) : Option Json :=
  match j with
  | .obj fields => (fields.filter (fun p => p.1 == k)).getLast?.map Prod.snd
  | _ => none

/-- Model of Value::as_str. -/
def asStr : Json → Option String
  | .str s => some s
  | _ => none

/-! ## Data model (src/api.rs structs, src/app.rs enums and state) -/

structure SearchSource where
  title : String
  url : String
  content : String
  engine : String
deriving DecidableEq

structure AppModel where
  id : String
  name : String
  description : Option String
  command : String
  url : String
deriving DecidableEq

structure Conversation where
  id : Int
  title : String
deriving DecidableEq

structure Model where
  id : String
  name : String
deriving DecidableEq

structure ProviderConfig where
  id : Int
  name : String
  type_ : String
  is_enabled : Bool
deriving DecidableEq

/-- Derived decoder of SearchSource from a JSON value (serde derive: an
object with the four string fields, unknown fields ignored). -/
def decodeSource (j : Json) : Option SearchSource :=
  match j with
  | .obj fields => do
    let t ← (jIndex (.obj fields) "title").bind asStr
    let u ← (jIndex (.obj fields) "url").bind asStr
    let c ← (jIndex (.obj fields) "content").bind asStr
    let e ← (jIndex (.obj fields) "engine").bind asStr
    some ⟨t, u, c, e⟩
  | _ => none

/-- Derived decoder of a Vec of SearchSource from a JSON value. -/
def decodeSources : Json → Option (List SearchSource)
  | .arr xs => xs.mapM decodeSource
  | _ => none

/-- Model of serde_json::from_str into Vec of SearchSource, as called on the
data of a results event. -/
def parseSources (s : String) : Option (List SearchSource) :=
  (Json.parse s).bind decodeSources

/-- Model of the summary-chunk payload reading: from_str to a Value followed
by indexing the text field and as_str. -/
def chunkText (s : String) : Option String :=
  (Json.parse s).bind fun j => (jIndex j "text").bind asStr

/-! ## Screens, modes, actions and state (src/app.rs) -/

inductive CurrentScreen where
  | Launcher
  | Search
deriving DecidableEq

inductive InputMode where
  | Normal
  | Editing
  | Filtering
  | AdHocCmd
  | SearchInput
  | SearchSidebar
  | ChatHistory
deriving DecidableEq

inductive SearchSidebarState where
  | Hidden
  | History
  | Settings
deriving DecidableEq

inductive AppAction where
  | Tick
  | Quit
  | SwitchTab
  | LoadApps
  | AppsLoaded (apps : List AppModel)
  | SelectNext
  | SelectPrev
  | ToggleFilter
  | EnterFilterChar (c : Char)
  | BackspaceFilter
  | OpenAddModal
  | OpenEditModal
  | ConfirmDelete
  | CloseModal
  | CycleFormFocus
  | FormChar (c : Char)
  | FormBackspace
  | SubmitForm
  | LaunchSelected
  | LaunchResult (msg : String)
  | OpenAdHocModal
  | SubmitAdHoc (cmd : String)
  | ToggleSearchSidebar
  | CycleSearchFocus
  | SidebarNext
  | SidebarPrev
  | SidebarSelect
  | NewConversation
  | LoadSearchState
  | ConversationsLoaded (convos : List Conversation)
  | ProvidersLoaded (provs : List ProviderConfig)
  | ModelsLoaded (models : List Model)
  | ConversationCreated (id : Int)
  | LoadConversation (id : Int)
  | ConversationLoaded (json : Json)
  | EnterSearchChar (c : Char)
  | DeleteSearchChar
  | SubmitSearch
  | ScrollChat (delta : Int)
  | SearchSourcesReceived (sources : List SearchSource)
  | SearchStreamToken (text : String)
  | SearchError (err : String)
  | SearchDone

structure ChatMessage where
  role : String
  content : String
  sources : List SearchSource
deriving DecidableEq

structure AppForm where
  id : String
  name : String
  desc : String
  cmd : String
  url : String
  focus_idx : Nat
deriving DecidableEq

/-- Default of AppForm per the Default impl in the source. -/
def AppForm.default : AppForm :=
  { id := "", name := "", desc := "", cmd := "", url := "http://localhost", focus_idx := 0 }

/-- Side effects of the reducer: each describes one background task the
source spawns with tokio::spawn, or one Action sent straight onto the
channel. The tasks themselves run against external collaborators and are
out of the state model; their terminal Actions re-enter through update. -/
inductive Effect where
  | fetchApps
  | submitForm (form : AppForm)
  | deleteApp (id : String)
  | launchApp (id : String) (name : String)
  | adhoc (cmd : String)
  | fetchSearchState
  | fetchModels (prov : String)
  | refreshConversations
  | loadConversation (id : Int)
  | startStream (query : String) (convoId : Option Int) (model : String)
      (prov : String) (activeProviderIds : List Int)
  | sendAction (a : AppAction)

/-- Application state: the App struct of src/app.rs without the two channel
handles (action_tx, action_rx), which are runtime plumbing rather than
state; what they carry is modelled by the Effect list the reducer returns. -/
structure App where
  should_quit : Bool
  current_screen : CurrentScreen
  input_mode : InputMode
  apps : List AppModel
  filtered_apps : List Nat
  apps_idx : Nat
  launcher_logs : List String
  is_loading_apps : Bool
  filter_input : String
  active_form : AppForm
  adhoc_input : String
  search_input : String
  messages : List ChatMessage
  is_searching : Bool
  search_sidebar : SearchSidebarState
  chat_scroll : Nat
  chat_auto_scroll : Bool
  current_convo_id : Option Int
  conversations : List Conversation
  conversation_idx : Nat
  llm_providers : List String
  selected_llm_provider : String
  models : List Model
  selected_model : String
  search_providers : List ProviderConfig
  settings_idx : Nat
deriving DecidableEq

/-- Initial state, App::new of the source. -/
def App.new : App where
  should_quit := false
  current_screen := .Launcher
  input_mode := .Normal
  apps := []
  filtered_apps := []
  apps_idx := 0
  launcher_logs := ["Ready."]
  is_loading_apps := false
  filter_input := ""
  active_form := AppForm.default
  adhoc_input := ""
  search_input := ""
  messages := [⟨"system",
    "Welcome to bplus search.\n\n- Press **Tab** to cycle focus (Sidebar -> Chat -> Input).\n- Use **Up/Down/PgUp/PgDn** to scroll chat when focused.", []⟩]
  is_searching := false
  search_sidebar := .Hidden
  chat_scroll := 0
  chat_auto_scroll := true
  current_convo_id := none
  conversations := []
  conversation_idx := 0
  llm_providers := ["lmstudio", "openai", "openrouter", "google"]
  selected_llm_provider := "lmstudio"
  models := []
  selected_model := "Loading..."
  search_providers := []
  settings_idx := 0

/-- App::get_selected_app. -/
def App.get_selected_app (s : App) : Option AppModel :=
  if s.filtered_apps.isEmpty then none
  else (s.filtered_apps[s.apps_idx]?).bind fun i => s.apps[i]?

/-- Filter predicate of App::update_filter: empty query matches everything,
otherwise case-insensitive substring on name or description. The query
argument is the already-lowercased filter input, as in the source. -/
def appMatches (query : String) (app : AppModel) : Bool :=
  if query.isEmpty then true
  else
    containsSeq (toLowerStr app.name).data query.data ||
    containsSeq (toLowerStr (app.description.getD "")).data query.data

/-- App::update_filter: recompute filtered_apps from (apps, filter_input)
via enumerate / filter / map, and reset the selection index. -/
def App.update_filter (s : App) : App :=
  let query := toLowerStr s.filter_input
  { s with
    filtered_apps := ((s.apps.enum.filter fun p => appMatches query p.2).map Prod.fst)
    apps_idx := 0 }

/-- Mutation of the focused form field by the FormChar arm. -/
def formPush (c : Char) (f : AppForm) : AppForm :=
  match f.focus_idx with
  | 0 => { f with name := f.name.push c }
  | 1 => { f with desc := f.desc.push c }
  | 2 => { f with cmd := f.cmd.push c }
  | 3 => { f with url := f.url.push c }
  | _ => f

/-- Mutation of the focused form field by the FormBackspace arm. -/
def formPop (f : AppForm) : AppForm :=
  match f.focus_idx with
  | 0 => { f with name := f.name.dropRight 1 }
  | 1 => { f with desc := f.desc.dropRight 1 }
  | 2 => { f with cmd := f.cmd.dropRight 1 }
  | 3 => { f with url := f.url.dropRight 1 }
  | _ => f

/-- Last-message mutation used by the stream-result arms: mutate the last
message of the transcript when there is one and its role is assistant,
exactly the last_mut / role check of the source. -/
def mapLastAssistant (f : ChatMessage → ChatMessage) : List ChatMessage → List ChatMessage
  | [] => []
  | [m] => if m.role == "assistant" then [f m] else [m]
  | m :: m2 :: rest => m :: mapLastAssistant f (m2 :: rest)

/-- Toggle of the is_enabled flag at one position, the get_mut arm of
SidebarSelect in Settings. -/
def toggleProviderAt (i : Nat) (l : List ProviderConfig) : List ProviderConfig :=
  l.mapIdx fun j p => if j = i then { p with is_enabled := !p.is_enabled } else p

/-- Decoding of one message of a loaded conversation (ConversationLoaded
arm): role and content as strings with defaults, sources parsed from an
embedded JSON string when present. -/
def msgFromJson (m : Json) : ChatMessage :=
  { role := ((jIndex m "role").bind asStr).getD "unknown"
    content := ((jIndex m "content").bind asStr).getD ""
    sources :=
      match (jIndex m "sources").bind asStr with
      | some sstr => ((Json.parse sstr).bind decodeSources).getD []
      | none => [] }

/-- App::update, the reducer: one pure state transition per Action plus the
list of side effects (spawned tasks, actions sent onto the channel) in
source order. Rust partiality (indexing, modulo by a length that the source
keeps nonzero) is modelled with total lookups falling back to the current
value. -/
def App.update (s : App) (action : AppAction) : App × List Effect :=
  match action with
  | .Tick => (s, [])
  | .Quit => ({ s with should_quit := true }, [])
  | .SwitchTab =>
    if s.input_mode = .Editing then (s, [])
    else
      match s.current_screen with
      | .Launcher =>
        ({ s with input_mode := .SearchInput, current_screen := .Search },
         if s.search_providers.isEmpty then [.sendAction .LoadSearchState] else [])
      | .Search =>
        ({ s with input_mode := .Normal, current_screen := .Launcher }, [])
  | .SelectNext =>
    if s.filtered_apps.isEmpty then (s, [])
    else ({ s with apps_idx := (s.apps_idx + 1) % s.filtered_apps.length }, [])
  | .SelectPrev =>
    if s.filtered_apps.isEmpty then (s, [])
    else if s.apps_idx = 0 then ({ s with apps_idx := s.filtered_apps.length - 1 }, [])
    else ({ s with apps_idx := s.apps_idx - 1 }, [])
  | .LoadApps => ({ s with is_loading_apps := true }, [.fetchApps])
  | .AppsLoaded apps =>
    (App.update_filter { s with apps := apps, is_loading_apps := false }, [])
  | .ToggleFilter =>
    match s.input_mode with
    | .Filtering => ({ s with input_mode := .Normal }, [])
    | _ =>
      let t := App.update_filter { s with filter_input := "" }
      ({ t with input_mode := .Filtering }, [])
  | .EnterFilterChar c =>
    (App.update_filter { s with filter_input := s.filter_input.push c }, [])
  | .BackspaceFilter =>
    (App.update_filter { s with filter_input := s.filter_input.dropRight 1 }, [])
  | .OpenAddModal =>
    ({ s with active_form := AppForm.default, input_mode := .Editing }, [])
  | .OpenEditModal =>
    match s.get_selected_app with
    | some app =>
      ({ s with
          active_form :=
            ⟨app.id, app.name, app.description.getD "", app.command, app.url, 0⟩
          input_mode := .Editing }, [])
    | none => (s, [])
  | .CloseModal => ({ s with input_mode := .Normal }, [])
  | .CycleFormFocus =>
    ({ s with active_form := { s.active_form with focus_idx := (s.active_form.focus_idx + 1) % 4 } }, [])
  | .FormChar c => ({ s with active_form := formPush c s.active_form }, [])
  | .FormBackspace => ({ s with active_form := formPop s.active_form }, [])
  | .SubmitForm =>
    ({ s with input_mode := .Normal }, [.submitForm s.active_form])
  | .ConfirmDelete =>
    match s.get_selected_app with
    | some app => (s, [.deleteApp app.id])
    | none => (s, [])
  | .LaunchSelected =>
    match s.get_selected_app with
    | some app =>
      ({ s with launcher_logs := s.launcher_logs ++ ["Executing \x27" ++ app.name ++ "\x27..."] },
       [.launchApp app.id app.name])
    | none => (s, [])
  | .LaunchResult msg =>
    let logs := s.launcher_logs ++ rustLines msg
    (({ s with launcher_logs := if logs.length > 100 then logs.drop (logs.length - 100) else logs }), [])
  | .OpenAdHocModal =>
    ({ s with adhoc_input := "", input_mode := .AdHocCmd }, [])
  | .SubmitAdHoc cmd =>
    ({ s with input_mode := .Normal, launcher_logs := s.launcher_logs ++ ["Running ad-hoc: " ++ cmd] },
     [.adhoc cmd])
  | .LoadSearchState =>
    (s, [.fetchSearchState, .fetchModels s.selected_llm_provider])
  | .ConversationsLoaded convos => ({ s with conversations := convos }, [])
  | .ProvidersLoaded provs => ({ s with search_providers := provs }, [])
  | .ModelsLoaded models =>
    ({ s with models := models
              selected_model :=
                match models.head? with
                | some first => first.id
                | none => "default" }, [])
  | .ToggleSearchSidebar =>
    let sb : SearchSidebarState :=
      match s.search_sidebar with
      | .Hidden => .History
      | .History => .Settings
      | .Settings => .Hidden
    ({ s with search_sidebar := sb
              input_mode := if sb ≠ .Hidden then .SearchSidebar else .SearchInput }, [])
  | .CycleSearchFocus =>
    ({ s with input_mode :=
        match s.input_mode with
        | .SearchInput => if s.search_sidebar ≠ .Hidden then .SearchSidebar else .ChatHistory
        | .SearchSidebar => .ChatHistory
        | .ChatHistory => .SearchInput
        | _ => .SearchInput }, [])
  | .SidebarNext =>
    match s.search_sidebar with
    | .History =>
      ({ s with conversation_idx := (s.conversation_idx + 1) % (s.conversations.length + 1) }, [])
    | .Settings =>
      ({ s with settings_idx := (s.settings_idx + 1) % (2 + s.search_providers.length) }, [])
    | .Hidden => (s, [])
  | .SidebarPrev =>
    match s.search_sidebar with
    | .History =>
      if s.conversation_idx = 0 then
        ({ s with conversation_idx := s.conversations.length + 1 - 1 }, [])
      else ({ s with conversation_idx := s.conversation_idx - 1 }, [])
    | .Settings =>
      if s.settings_idx = 0 then
        ({ s with settings_idx := (2 + s.search_providers.length) - 1 }, [])
      else ({ s with settings_idx := s.settings_idx - 1 }, [])
    | .Hidden => (s, [])
  | .SidebarSelect =>
    match s.search_sidebar with
    | .History =>
      if s.conversation_idx = 0 then (s, [.sendAction .NewConversation])
      else
        match s.conversations[s.conversation_idx - 1]? with
        | some c => (s, [.sendAction (.LoadConversation c.id)])
        | none => (s, [])
    | .Settings =>
      if s.settings_idx = 0 then
        let curr := (s.llm_providers.findIdx? (· == s.selected_llm_provider)).getD 0
        let next := (curr + 1) % s.llm_providers.length
        let newProv := (s.llm_providers[next]?).getD s.selected_llm_provider
        ({ s with selected_llm_provider := newProv }, [.fetchModels newProv])
      else if s.settings_idx = 1 then
        if s.models.isEmpty then (s, [])
        else
          let curr := (s.models.findIdx? (fun m => m.id == s.selected_model)).getD 0
          let next := (curr + 1) % s.models.length
          ({ s with selected_model := ((s.models[next]?).map Model.id).getD s.selected_model }, [])
      else
        ({ s with search_providers := toggleProviderAt (s.settings_idx - 2) s.search_providers }, [])
    | .Hidden => (s, [])
  | .NewConversation =>
    ({ s with current_convo_id := none
              messages := [⟨"system", "New conversation started.", []⟩]
              chat_auto_scroll := true
              search_sidebar := .Hidden
              input_mode := .SearchInput }, [])
  | .ConversationCreated id =>
    ({ s with current_convo_id := some id }, [.refreshConversations])
  | .LoadConversation id =>
    ({ s with current_convo_id := some id
              messages := [⟨"system", "Loading conversation...", []⟩]
              chat_auto_scroll := true
              input_mode := .ChatHistory }, [.loadConversation id])
  | .ConversationLoaded json =>
    ({ s with messages :=
        (match jIndex json "messages" with
         | some (.arr ms) => ms.map msgFromJson
         | _ => [])
              chat_auto_scroll := true }, [])
  | .ScrollChat delta =>
    ({ s with chat_auto_scroll := false
              chat_scroll :=
                if delta < 0 then s.chat_scroll - delta.natAbs
                else min (s.chat_scroll + delta.toNat) 65535 }, [])
  | .EnterSearchChar c => ({ s with search_input := s.search_input.push c }, [])
  | .DeleteSearchChar => ({ s with search_input := s.search_input.dropRight 1 }, [])
  | .SubmitSearch =>
    if !(rustTrim s.search_input).isEmpty && !s.is_searching then
      let query := s.search_input
      ({ s with messages := s.messages ++ [⟨"user", query, []⟩, ⟨"assistant", "", []⟩]
                search_input := ""
                is_searching := true
                chat_auto_scroll := true },
       [.startStream query s.current_convo_id s.selected_model s.selected_llm_provider
          ((s.search_providers.filter (·.is_enabled)).map (·.id))])
    else (s, [])
  | .SearchSourcesReceived sources =>
    ({ s with messages := mapLastAssistant (fun m => { m with sources := sources }) s.messages }, [])
  | .SearchStreamToken text =>
    ({ s with messages := mapLastAssistant (fun m => { m with content := m.content ++ text }) s.messages }, [])
  | .SearchError err =>
    ({ s with messages := s.messages ++ [⟨"system", "Error: " ++ err, []⟩]
              is_searching := false }, [])
  | .SearchDone => ({ s with is_searching := false }, [])

/-- State part of one reducer application. -/
def step (s : App) (a : AppAction) : App := (App.update s a).1

/-- Fold a sequence of Actions through the reducer from a start state. -/
def runActions (s : App) (as : List AppAction) : App := as.foldl step s

/-! ## Scroll projection (src/ui.rs, end of render_search) -/

/-- Scroll clamping performed on every redraw by render_search: with the
rendered line count and the inner viewport height, auto-follow pins the
offset to max_scroll, and otherwise an offset beyond max_scroll is pulled
back to it. Nat subtraction models the u16 saturating_sub of the source. -/
def renderClamp (totalLines viewHeight : Nat) (s : App) : App :=
  let maxScroll := totalLines - viewHeight
  if s.chat_auto_scroll then { s with chat_scroll := maxScroll }
  else if s.chat_scroll > maxScroll then { s with chat_scroll := maxScroll }
  else s

/-! ## Key dispatch (src/main.rs event loop) -/

inductive KeyCode where
  | Tab
  | Esc
  | Enter
  | Backspace
  | Up
  | Down
  | PageUp
  | PageDown
  | Char (c : Char)
  | Other
deriving DecidableEq

structure KeyEvent where
  code : KeyCode
  ctrl : Bool
deriving DecidableEq

/-- Actions the main loop feeds to the reducer for one key event, as a
function of the current input mode and screen, in source order. The ctrl-q
check of the source runs before the mode match and does not otherwise stop
it. In AdHocCmd mode, Backspace and Char mutate adhoc_input directly in the
loop without an Action, so they contribute nothing here; the Enter arm
captures the current adhoc_input into its Action. -/
def dispatch (mode : InputMode) (screen : CurrentScreen) (adhoc : String)
    (key : KeyEvent) : List AppAction :=
  (if key.code == KeyCode.Char 'q' && key.ctrl then [AppAction.Quit] else []) ++
  match mode with
  | .Normal =>
    match key.code with
    | .Tab => [.SwitchTab]
    | .Char c =>
      if c == 'q' then [.Quit]
      else
        match screen with
        | .Launcher =>
          if c == 'j' then [.SelectNext]
          else if c == 'k' then [.SelectPrev]
          else if c == '/' then [.ToggleFilter]
          else if c == 'a' then [.OpenAddModal]
          else if c == 'e' then [.OpenEditModal]
          else if c == 'd' then [.ConfirmDelete]
          else if c == ':' then [.OpenAdHocModal]
          else []
        | .Search => []
    | .Down => match screen with | .Launcher => [.SelectNext] | .Search => []
    | .Up => match screen with | .Launcher => [.SelectPrev] | .Search => []
    | .Enter => match screen with | .Launcher => [.LaunchSelected] | .Search => []
    | _ => []
  | .SearchInput =>
    match key.code with
    | .Esc => [.SwitchTab]
    | .Tab => [.CycleSearchFocus]
    | .Enter => [.SubmitSearch]
    | .Backspace => [.DeleteSearchChar]
    | .Char c => if c == 's' && key.ctrl then [.ToggleSearchSidebar] else [.EnterSearchChar c]
    | _ => []
  | .SearchSidebar =>
    match key.code with
    | .Esc => [.SwitchTab]
    | .Tab => [.CycleSearchFocus]
    | .Down => [.SidebarNext]
    | .Up => [.SidebarPrev]
    | .Enter => [.SidebarSelect]
    | .Char c =>
      if c == 's' && key.ctrl then [.ToggleSearchSidebar]
      else if c == 'j' then [.SidebarNext]
      else if c == 'k' then [.SidebarPrev]
      else if c == ' ' then [.SidebarSelect]
      else []
    | _ => []
  | .ChatHistory =>
    match key.code with
    | .Esc => [.SwitchTab]
    | .Tab => [.CycleSearchFocus]
    | .Up => [.ScrollChat (-1)]
    | .Down => [.ScrollChat 1]
    | .PageUp => [.ScrollChat (-10)]
    | .PageDown => [.ScrollChat 10]
    | .Char c =>
      if c == 's' && key.ctrl then [.ToggleSearchSidebar]
      else if c == 'k' then [.ScrollChat (-1)]
      else if c == 'j' then [.ScrollChat 1]
      else []
    | _ => []
  | .Filtering =>
    match key.code with
    | .Enter => [.ToggleFilter]
    | .Esc => [.ToggleFilter]
    | .Backspace => [.BackspaceFilter]
    | .Char c => [.EnterFilterChar c]
    | _ => []
  | .Editing =>
    match key.code with
    | .Esc => [.CloseModal]
    | .Tab => [.CycleFormFocus]
    | .Enter => [.SubmitForm]
    | .Backspace => [.FormBackspace]
    | .Char c => [.FormChar c]
    | _ => []
  | .AdHocCmd =>
    match key.code with
    | .Esc => [.CloseModal]
    | .Enter => [.SubmitAdHoc adhoc]
    | _ => []

/-! ## Stream ingestion (src/api.rs, event loop of start_search_stream) -/

/-- One item of the eventsource stream: a decoded event with its name and
raw data, or a transport-level decode failure. -/
inductive StreamItem where
  | ok (event : String) (data : String)
  | transportErr (msg : String)

/-- The while-let loop of start_search_stream: fold the stream items into
the Actions sent onto the channel, stopping where the source breaks. A
results payload that fails to parse as a Vec of SearchSource is skipped; a
summary-chunk whose payload fails to parse or lacks a string text field is
skipped; an error event sends the raw data as a SearchError and the loop
continues; summary-done sends SearchDone and breaks; an unrecognized event
is skipped; a transport error sends a SearchError and breaks. -/
def streamActions : List StreamItem → List AppAction
  | [] => []
  | .transportErr e :: _ => [.SearchError e]
  | .ok name data :: rest =>
    if name = "results" then
      (match parseSources data with
       | some sources => [AppAction.SearchSourcesReceived sources]
       | none => []) ++ streamActions rest
    else if name = "summary-chunk" then
      (match chunkText data with
       | some text => [AppAction.SearchStreamToken text]
       | none => []) ++ streamActions rest
    else if name = "error" then
      AppAction.SearchError data :: streamActions rest
    else if name = "summary-done" then
      [AppAction.SearchDone]
    else
      streamActions rest

/-! ## Claim-side characterizations

These definitions follow the wording of the specification (not the source)
and are compared with the source-derived definitions by the theorems. -/

/-- Spec-side filter predicate: an app matches when the filter is empty, or
its name or description contains the filter string as a case-insensitive
substring. -/
def claimMatches (filterStr : String) (a : AppModel) : Bool :=
  filterStr.isEmpty ||
  containsSeq (toLowerStr a.name).data (toLowerStr filterStr).data ||
  containsSeq (toLowerStr (a.description.getD "")).data (toLowerStr filterStr).data

/-- Spec-side characterization of the filtered list: exactly the indices of
matching apps, in ascending index order. -/
def indicesMatching (filterStr : String) (apps : List AppModel) : List Nat :=
  (List.range apps.length).filter fun i => ((apps[i]?).map (claimMatches filterStr)).getD false

/-- Spec-side filter invariant: the filtered list is exactly the matching
index list for the current apps and filter, and the selection index is 0. -/
def filterInv (t : App) : Prop :=
  t.filtered_apps = indicesMatching t.filter_input t.apps ∧ t.apps_idx = 0

/-! ## Helper lemmas -/

/-- A nonempty string is not isEmpty. -/
lemma isEmpty_cons (c : Char) (cs : List Char) : (String.mk (c :: cs)).isEmpty = false := by
  simp only [String.isEmpty, String.endPos, String.utf8ByteSize, beq_eq_false_iff_ne, ne_eq,
    String.Pos.ext_iff]
  have := Char.utf8Size_pos c
  simp [String.utf8ByteSize.go]
  omega

/-- Lowercasing preserves emptiness. -/
lemma toLowerStr_isEmpty (q : String) : (toLowerStr q).isEmpty = q.isEmpty := by
  rcases q with ⟨_ | ⟨c, cs⟩⟩
  · rfl
  · rw [show toLowerStr ⟨c :: cs⟩ = ⟨lowerChar c :: cs.map lowerChar⟩ from rfl,
      isEmpty_cons, isEmpty_cons]

/-- The source predicate applied to the lowered query coincides with the
spec-side predicate on the raw query. -/
lemma appMatches_eq_claimMatches (q : String) (a : AppModel) :
    appMatches (toLowerStr q) a = claimMatches q a := by
  unfold appMatches claimMatches
  rw [toLowerStr_isEmpty]
  cases h : q.isEmpty <;> simp [h]

/-- Filtering after a map is mapping after filtering the composition. -/
lemma filterOfMap {α β : Type} (g : α → β) (q : β → Bool) (xs : List α) :
    (xs.map g).filter q = (xs.filter fun x => q (g x)).map g := by
  induction xs with
  | nil => rfl
  | cons a t ih =>
    simp only [List.map_cons, List.filter_cons]
    cases h : q (g a) <;> simp [h, ih]

/-- Shifting the base of enumFrom shifts every produced index. -/
lemma enumFrom_shift {α : Type} : ∀ (l : List α) (n : Nat),
    List.enumFrom (n + 1) l = (List.enumFrom n l).map fun p => (p.1 + 1, p.2)
  | [], _ => rfl
  | a :: t, n => by
    simp only [List.enumFrom, List.map_cons]
    exact congrArg _ (enumFrom_shift t (n + 1))

/-- The enumerate / filter / map-first pipeline of update_filter produces
exactly the ascending list of indices whose element satisfies the
predicate. -/
lemma enum_filter_map_fst (f : AppModel → Bool) (l : List AppModel) :
    ((l.enum.filter fun p => f p.2).map Prod.fst)
      = (List.range l.length).filter fun i => ((l[i]?).map f).getD false := by
  induction l with
  | nil => rfl
  | cons a t ih =>
    have shift : List.enumFrom 1 t = t.enum.map fun p => (p.1 + 1, p.2) := enumFrom_shift t 0
    simp only [List.enum, List.enumFrom, List.length_cons, List.range_succ_eq_map,
      List.filter_cons]
    rw [show List.enumFrom 1 t = t.enum.map fun p => (p.1 + 1, p.2) from shift]
    rw [filterOfMap, filterOfMap]
    simp only [List.map_map]
    cases h : f a <;>
      simp [h, ← ih, List.map_map, Function.comp, List.getElem?_cons_succ,
        List.getElem?_cons_zero, Nat.succ_eq_add_one]

/-- update_filter establishes the spec-side filter invariant. -/
lemma update_filter_filterInv (s : App) : filterInv (App.update_filter s) := by
  refine ⟨?_, rfl⟩
  show ((s.apps.enum.filter fun p => appMatches (toLowerStr s.filter_input) p.2).map Prod.fst)
      = indicesMatching s.filter_input s.apps
  rw [enum_filter_map_fst]
  unfold indicesMatching
  refine List.filter_congr fun i _ => ?_
  cases s.apps[i]? <;> simp [appMatches_eq_claimMatches]

/-- Setting the input mode does not disturb the filter invariant. -/
lemma filterInv_set_mode (t : App) (m : InputMode) (h : filterInv t) :
    filterInv { t with input_mode := m } := h

/-- Appending one message and then mutating the last message mutates the
appended one when its role is assistant. -/
lemma mapLastAssistant_concat (f : ChatMessage → ChatMessage) :
    ∀ (l : List ChatMessage) (m : ChatMessage),
      mapLastAssistant f (l ++ [m]) = l ++ [if m.role == "assistant" then f m else m]
  | [], m => by cases h : m.role == "assistant" <;> simp [mapLastAssistant, h]
  | [a], m => by cases h : m.role == "assistant" <;> simp [mapLastAssistant, h]
  | a :: b :: t, m => by
    have ih := mapLastAssistant_concat f (b :: t) m
    simp only [List.cons_append] at ih ⊢
    rw [mapLastAssistant, ih]

/-- Same, through a two-message suffix. -/
lemma mapLastAssistant_append_pair (f : ChatMessage → ChatMessage)
    (l : List ChatMessage) (x y : ChatMessage) :
    mapLastAssistant f (l ++ [x, y]) = l ++ [x, if y.role == "assistant" then f y else y] := by
  have h : l ++ [x, y] = (l ++ [x]) ++ [y] := by simp
  rw [h, mapLastAssistant_concat]
  simp

/-- Characterization of mapLastAssistant by getLast? and dropLast. -/
lemma mapLastAssistant_eq_getLast (f : ChatMessage → ChatMessage) (l : List ChatMessage) :
    mapLastAssistant f l =
      match l.getLast? with
      | none => l
      | some m => if m.role == "assistant" then l.dropLast ++ [f m] else l := by
  rcases List.eq_nil_or_concat l with rfl | ⟨l2, m, rfl⟩
  · rfl
  · rw [List.concat_eq_append, mapLastAssistant_concat]
    simp only [List.getLast?_concat, List.dropLast_concat]
    cases h : m.role == "assistant" <;> simp [h]

/-- getLast? of a two-message suffix. -/
lemma getLast?_append_pair {α : Type} (l : List α) (x y : α) :
    (l ++ [x, y]).getLast? = some y := by
  have h : l ++ [x, y] = (l ++ [x]) ++ [y] := by simp
  rw [h, List.getLast?_concat]

/-! ## Claims -/

/-- C2 counterexample: the claim that nothing state-changing follows an
explicit error event is false. After the error event `boom`, a well-formed
summary-chunk still produces a SearchStreamToken Action, because the error
arm of the stream loop does not break. -/
theorem c2_error_event_counterexample :
    streamActions [.ok "error" "boom", .ok "summary-chunk" "\x7b\"text\":\"hi\"\x7d"] =
      [.SearchError "boom", .SearchStreamToken "hi"] := rfl

/-- C2 amended: an explicit error event emits a SearchError Action, whose
reducer effect appends a system message describing the error and clears the
busy flag, but consumption continues; only a transport-level decode failure
(or summary-done) stops the loop, the former also emitting a SearchError. -/
theorem c2_error_event_amended (d e : String) (rest : List StreamItem) (s : App) :
    streamActions (.ok "error" d :: rest) = .SearchError d :: streamActions rest ∧
    streamActions (.transportErr e :: rest) = [.SearchError e] ∧
    (step s (.SearchError d)).messages = s.messages ++ [⟨"system", "Error: " ++ d, []⟩] ∧
    (step s (.SearchError d)).is_searching = false :=
  ⟨rfl, rfl, rfl, rfl⟩

/-- C3 counterexample: the claim that a stream-error Action delivered while
the busy flag is already false appends no duplicate system message is
false. From the initial state the busy flag is false, yet SearchError still
appends a system message; a second identical delivery appends it again. -/
theorem c3_idempotence_counterexample :
    App.new.is_searching = false ∧
    (step App.new (.SearchError "boom")).is_searching = false ∧
    (step (step App.new (.SearchError "boom")) (.SearchError "boom")).messages =
      (step App.new (.SearchError "boom")).messages ++ [⟨"system", "Error: boom", []⟩] :=
  ⟨rfl, rfl, rfl⟩

/-- C3 amended: SearchDone delivered when the busy flag is already false
leaves the state unchanged; SearchError always clears the busy flag but
also always appends a system message, even when the flag is already false,
so duplicate error deliveries append duplicate messages. -/
theorem c3_idempotence_amended (s : App) (e : String) (h : s.is_searching = false) :
    step s .SearchDone = s ∧
    (step s (.SearchError e)).is_searching = false ∧
    (step s (.SearchError e)).messages = s.messages ++ [⟨"system", "Error: " ++ e, []⟩] := by
  refine ⟨?_, rfl, rfl⟩
  unfold step App.update
  cases s
  simp_all

/-- C3 amended witness at the initial state. -/
theorem c3_idempotence_amended_witness :
    App.new.is_searching = false ∧ step App.new .SearchDone = App.new :=
  ⟨rfl, (c3_idempotence_amended App.new "x" rfl).1⟩

/-- C5: submitting while a search is already running, or with a query that
is empty after trimming, leaves the whole state unchanged and spawns
nothing, so at most one stream is started at a time. -/
theorem c5_submit_gating (s : App)
    (h : s.is_searching = true ∨ (rustTrim s.search_input).isEmpty = true) :
    App.update s .SubmitSearch = (s, []) := by
  unfold App.update
  rcases h with h | h <;> simp [h]

/-- C5 witness at the initial state, whose query is empty. -/
theorem c5_submit_gating_witness :
    (rustTrim App.new.search_input).isEmpty = true ∧
    App.update App.new .SubmitSearch = (App.new, []) :=
  ⟨rfl, c5_submit_gating App.new (Or.inr rfl)⟩

/-- C6 counterexample: the claim that a malformed results or summary-chunk
payload is handled like an explicit error event is false. A results payload
that is not JSON and a summary-chunk payload that fails to parse produce no
SearchError and do not terminate the stream: consumption continues to the
summary-done event. -/
theorem c6_malformed_payload_counterexample :
    streamActions [.ok "results" "notjson", .ok "summary-chunk" "\x7b\"oops\"",
      .ok "summary-done" ""] = [.SearchDone] := rfl

/-- C6 amended: a results payload that fails to parse as a SearchSource
array, or a summary-chunk payload without a string text field, is silently
skipped and consumption continues; only a transport-level decode failure is
turned into a SearchError that terminates the stream. -/
theorem c6_malformed_payload_amended (dataStr : String) (rest : List StreamItem)
    (hr : parseSources dataStr = none) (hc : chunkText dataStr = none) :
    streamActions (.ok "results" dataStr :: rest) = streamActions rest ∧
    streamActions (.ok "summary-chunk" dataStr :: rest) = streamActions rest ∧
    ∀ e, streamActions (.transportErr e :: rest) = [.SearchError e] := by
  refine ⟨?_, ?_, fun e => rfl⟩
  · show (match parseSources dataStr with
      | some sources => [AppAction.SearchSourcesReceived sources]
      | none => []) ++ streamActions rest = streamActions rest
    rw [hr]
    simp
  · show (match chunkText dataStr with
      | some text => [AppAction.SearchStreamToken text]
      | none => []) ++ streamActions rest = streamActions rest
    rw [hc]
    simp

/-- C6 amended witness on a concrete malformed payload. -/
theorem c6_malformed_payload_amended_witness :
    parseSources "notjson" = none ∧ chunkText "notjson" = none ∧
    streamActions [.ok "results" "notjson"] = streamActions [] :=
  ⟨rfl, rfl, (c6_malformed_payload_amended "notjson" [] rfl rfl).1⟩

/-- C7: a manual scroll Action disables auto-follow, and after the redraw
clamp of render_search the offset lies in the interval from 0 (trivially,
the offset is a natural number modelling u16) to max_scroll, which is the
truncated difference of total rendered lines and viewport height, that is
max(0, T - H). -/
theorem c7_scroll_clamp (s : App) (d : Int) (totalLines viewHeight : Nat) :
    (renderClamp totalLines viewHeight (step s (.ScrollChat d))).chat_auto_scroll = false ∧
    (renderClamp totalLines viewHeight (step s (.ScrollChat d))).chat_scroll
      ≤ totalLines - viewHeight := by
  have key : ∀ X : App, X.chat_auto_scroll = false →
      (renderClamp totalLines viewHeight X).chat_auto_scroll = false ∧
      (renderClamp totalLines viewHeight X).chat_scroll ≤ totalLines - viewHeight := by
    intro X hX
    simp only [renderClamp, hX, Bool.false_eq_true, if_false]
    split_ifs with h
    · exact ⟨rfl, Nat.le_refl _⟩
    · exact ⟨hX, by omega⟩
  exact key _ rfl

/-- C8: the focus-cycle Action sends SearchInput to ChatHistory when the
sidebar is hidden and to SearchSidebar otherwise, SearchSidebar to
ChatHistory, and ChatHistory to SearchInput (the reducer arm behaves this
way in every state, hence in particular on the Search screen; any other
mode falls back to SearchInput). -/
theorem c8_focus_cycle (s : App) :
    (step s .CycleSearchFocus).input_mode =
      match s.input_mode with
      | .SearchInput => if s.search_sidebar = .Hidden then .ChatHistory else .SearchSidebar
      | .SearchSidebar => .ChatHistory
      | .ChatHistory => .SearchInput
      | _ => .SearchInput := by
  unfold step App.update
  cases s.input_mode <;> cases hs : s.search_sidebar <;> simp [hs]

/-- C10: the stream-result Actions SearchSourcesReceived and
SearchStreamToken change nothing but the transcript, and within it at most
the last message, and only when its role is assistant: with an empty
transcript or a last message of another role the transcript, hence the
whole state, is unchanged; the busy flag, scroll state, input buffers and
every other field are untouched and no effect is spawned. -/
theorem c10_stream_merge_frame (s : App) (src : List SearchSource) (t : String) :
    ({ step s (.SearchSourcesReceived src) with messages := s.messages } = s) ∧
    (step s (.SearchSourcesReceived src)).messages =
      (match s.messages.getLast? with
       | none => s.messages
       | some m =>
         if m.role == "assistant" then s.messages.dropLast ++ [{ m with sources := src }]
         else s.messages) ∧
    (App.update s (.SearchSourcesReceived src)).2 = [] ∧
    ({ step s (.SearchStreamToken t) with messages := s.messages } = s) ∧
    (step s (.SearchStreamToken t)).messages =
      (match s.messages.getLast? with
       | none => s.messages
       | some m =>
         if m.role == "assistant" then s.messages.dropLast ++ [{ m with content := m.content ++ t }]
         else s.messages) ∧
    (App.update s (.SearchStreamToken t)).2 = [] :=
  ⟨rfl, mapLastAssistant_eq_getLast _ _, rfl, rfl, mapLastAssistant_eq_getLast _ _, rfl⟩

/-- C1: from any state with a non-blank query and a clear busy flag,
submitting and then applying the source batch, the two chunks and the
completion leaves the last message as the assistant message Hello carrying
exactly the two sources, and the busy flag clear; moreover a second source
batch replaces (not appends to) the open message's source list. -/
theorem c1_streaming_merge (s : App) (s1 s2 : SearchSource)
    (hq : (rustTrim s.search_input).isEmpty = false)
    (hb : s.is_searching = false) :
    (runActions s [.SubmitSearch, .SearchSourcesReceived [s1, s2],
        .SearchStreamToken "Hel", .SearchStreamToken "lo", .SearchDone]).messages.getLast?
      = some ⟨"assistant", "Hello", [s1, s2]⟩ ∧
    (runActions s [.SubmitSearch, .SearchSourcesReceived [s1, s2],
        .SearchStreamToken "Hel", .SearchStreamToken "lo", .SearchDone]).is_searching = false ∧
    (runActions s [.SubmitSearch, .SearchSourcesReceived [s1],
        .SearchSourcesReceived [s2]]).messages.getLast? = some ⟨"assistant", "", [s2]⟩ := by
  have hguard : (!(rustTrim s.search_input).isEmpty && !s.is_searching) = true := by
    rw [hq, hb]; rfl
  have e1 : step s .SubmitSearch =
      { s with messages := s.messages ++ [⟨"user", s.search_input, []⟩, ⟨"assistant", "", []⟩]
               search_input := ""
               is_searching := true
               chat_auto_scroll := true } := by
    unfold step App.update
    rw [hguard]
    rfl
  have merge1 : ∀ (f : ChatMessage → ChatMessage) (l : List ChatMessage) (x : ChatMessage)
      (cont : String) (srcs : List SearchSource),
      mapLastAssistant f (l ++ [x, ⟨"assistant", cont, srcs⟩])
        = l ++ [x, f ⟨"assistant", cont, srcs⟩] := by
    intro f l x cont srcs
    rw [mapLastAssistant_append_pair]
    simp
  simp only [runActions, List.foldl, e1]
  refine ⟨?_, ?_, ?_⟩
  · show (step (step (step (step
        { s with messages := s.messages ++ [⟨"user", s.search_input, []⟩, ⟨"assistant", "", []⟩]
                 search_input := "", is_searching := true, chat_auto_scroll := true }
        (.SearchSourcesReceived [s1, s2])) (.SearchStreamToken "Hel"))
        (.SearchStreamToken "lo")) .SearchDone).messages.getLast?
      = some ⟨"assistant", "Hello", [s1, s2]⟩
    unfold step App.update
    simp only [merge1, getLast?_append_pair]
    rfl
  · rfl
  · show (step (step
        { s with messages := s.messages ++ [⟨"user", s.search_input, []⟩, ⟨"assistant", "", []⟩]
                 search_input := "", is_searching := true, chat_auto_scroll := true }
        (.SearchSourcesReceived [s1])) (.SearchSourcesReceived [s2])).messages.getLast?
      = some ⟨"assistant", "", [s2]⟩
    unfold step App.update
    simp only [merge1, getLast?_append_pair]

/-- C1 witness at the initial state with query hi and concrete sources. -/
theorem c1_streaming_merge_witness :
    (rustTrim ({ App.new with search_input := "hi" } : App).search_input).isEmpty = false ∧
    ({ App.new with search_input := "hi" } : App).is_searching = false ∧
    (runActions { App.new with search_input := "hi" }
      [.SubmitSearch, .SearchSourcesReceived [⟨"t1", "u1", "c1", "e1"⟩, ⟨"t2", "u2", "c2", "e2"⟩],
       .SearchStreamToken "Hel", .SearchStreamToken "lo", .SearchDone]).messages.getLast?
      = some ⟨"assistant", "Hello", [⟨"t1", "u1", "c1", "e1"⟩, ⟨"t2", "u2", "c2", "e2"⟩]⟩ :=
  ⟨rfl, rfl,
    (c1_streaming_merge { App.new with search_input := "hi" }
      ⟨"t1", "u1", "c1", "e1"⟩ ⟨"t2", "u2", "c2", "e2"⟩ rfl rfl).1⟩

/-- C4 counterexample: the claim that after any filter-editing Action the
selection index is 0 (and the filtered list is recomputed) is false for
ToggleFilter leaving filter mode. In the run below the final Action is
ToggleFilter, yet the selection index stays 1: the Filtering arm of
ToggleFilter only switches the mode back to Normal. -/
theorem c4_filter_invariant_counterexample :
    (runActions App.new
      [.AppsLoaded [⟨"1", "Alpha", none, "cmd", "u"⟩, ⟨"2", "Beta", none, "cmd", "u"⟩],
       .ToggleFilter, .SelectNext, .ToggleFilter]).apps_idx = 1 := rfl

/-- C4 amended: EnterFilterChar, BackspaceFilter, AppsLoaded, and a
ToggleFilter that enters filter mode all re-establish the filter invariant
(filtered_apps is exactly the ascending list of case-insensitively matching
indices, every app matching when the filter is empty, and the selection is
0), the entering ToggleFilter additionally clearing the filter; but a
ToggleFilter applied in Filtering mode only sets the mode to Normal,
leaving filter_input, filtered_apps and apps_idx untouched. -/
theorem c4_filter_invariant_amended (s : App) (c : Char) (apps : List AppModel) :
    filterInv (step s (.EnterFilterChar c)) ∧
    filterInv (step s .BackspaceFilter) ∧
    filterInv (step s (.AppsLoaded apps)) ∧
    (s.input_mode ≠ .Filtering →
      filterInv (step s .ToggleFilter) ∧ (step s .ToggleFilter).filter_input = "") ∧
    (s.input_mode = .Filtering → step s .ToggleFilter = { s with input_mode := .Normal }) := by
  refine ⟨update_filter_filterInv _, update_filter_filterInv _, update_filter_filterInv _,
    ?_, ?_⟩
  · intro h
    unfold step App.update
    cases hm : s.input_mode <;> simp only [hm, ne_eq, not_true_eq_false] at h <;>
      exact ⟨filterInv_set_mode _ _ (update_filter_filterInv { s with filter_input := "" }), rfl⟩
  · intro h
    unfold step App.update
    rw [h]

/-- C4 amended witness: the entering toggle and a filter keypress at the
initial state, and the mode-only toggle from Filtering. -/
theorem c4_filter_invariant_amended_witness :
    App.new.input_mode ≠ InputMode.Filtering ∧
    filterInv (step App.new .ToggleFilter) ∧
    filterInv (step App.new (.EnterFilterChar 'a')) ∧
    step { App.new with input_mode := .Filtering } .ToggleFilter
      = { App.new with input_mode := .Normal } := by
  refine ⟨by decide, ((c4_filter_invariant_amended App.new 'a' []).2.2.2.1 (by decide)).1,
    (c4_filter_invariant_amended App.new 'a' []).1, ?_⟩
  exact (c4_filter_invariant_amended { App.new with input_mode := .Filtering } 'a' []).2.2.2.2 rfl

/-- C9 counterexample: the claim that the reducer silently ignores
character-input Actions outside the corresponding text-entry mode is false.
In the initial state the mode is Normal, not Filtering, yet EnterFilterChar
changes the filter input, so the state is not left unchanged. -/
theorem c9_mode_gating_counterexample :
    App.new.input_mode ≠ InputMode.Filtering ∧
    (step App.new (.EnterFilterChar 'z')).filter_input = "z" ∧
    step App.new (.EnterFilterChar 'z') ≠ App.new := by
  refine ⟨by decide, rfl, ?_⟩
  intro h
  exact absurd (congrArg App.filter_input h) (by decide)

set_option maxHeartbeats 2000000 in
/-- Dispatch emits each character-input Action only in its corresponding
text-entry mode. -/
lemma dispatch_char_gating (mode : InputMode) (screen : CurrentScreen) (adhoc : String)
    (key : KeyEvent) (c : Char) :
    (AppAction.EnterFilterChar c ∈ dispatch mode screen adhoc key → mode = .Filtering) ∧
    (AppAction.FormChar c ∈ dispatch mode screen adhoc key → mode = .Editing) ∧
    (AppAction.EnterSearchChar c ∈ dispatch mode screen adhoc key → mode = .SearchInput) := by
  rcases key with ⟨code, ctrl⟩
  cases mode <;> cases code <;> cases screen <;>
    refine ⟨fun h => ?_, fun h => ?_, fun h => ?_⟩ <;>
    first
      | rfl
      | (dsimp only [dispatch] at h; split_ifs at h <;> simp at h)

/-- C9 amended: the reducer applies character-input Actions unconditionally
in every mode (EnterFilterChar always extends the filter and refilters,
EnterSearchChar always extends the query, FormChar always edits the focused
form field); the mode gating lives in the key-dispatch layer of the event
loop, which emits each of these Actions only in its corresponding
text-entry mode. -/
theorem c9_char_actions_amended (s : App) (mode : InputMode) (screen : CurrentScreen)
    (adhoc : String) (key : KeyEvent) (c : Char) :
    step s (.EnterFilterChar c)
      = App.update_filter { s with filter_input := s.filter_input.push c } ∧
    step s (.EnterSearchChar c) = { s with search_input := s.search_input.push c } ∧
    step s (.FormChar c) = { s with active_form := formPush c s.active_form } ∧
    (AppAction.EnterFilterChar c ∈ dispatch mode screen adhoc key → mode = .Filtering) ∧
    (AppAction.FormChar c ∈ dispatch mode screen adhoc key → mode = .Editing) ∧
    (AppAction.EnterSearchChar c ∈ dispatch mode screen adhoc key → mode = .SearchInput) :=
  ⟨rfl, rfl, rfl, (dispatch_char_gating mode screen adhoc key c).1,
    (dispatch_char_gating mode screen adhoc key c).2.1,
    (dispatch_char_gating mode screen adhoc key c).2.2⟩

/-- C9 amended witness: a filter keypress dispatched in Filtering mode. -/
theorem c9_char_actions_amended_witness :
    (AppAction.EnterFilterChar 'z'
      ∈ dispatch .Filtering .Launcher "" ⟨.Char 'z', false⟩) ∧
    InputMode.Filtering = InputMode.Filtering ∧
    step App.new (.EnterSearchChar 'z') = { App.new with search_input := "z" } := by
  refine ⟨by simp [dispatch], ?_, ?_⟩
  · exact (c9_char_actions_amended App.new .Filtering .Launcher "" ⟨.Char 'z', false⟩ 'z').2.2.2.1
      (by simp [dispatch])
  · exact (c9_char_actions_amended App.new .Filtering .Launcher "" ⟨.Char 'z', false⟩ 'z').2.1

end Bplus
